import Mathlib

/-!
Shallow embedding of `src/app.py` (a voice-driven attendance kiosk).

The embedded pieces are the ones the specification's claims are about:

* the utterance parser `parse_attendance` (regex
  `my name is (.*?) class ([\w\s-]+)$`, `re.IGNORECASE`, via `re.search`),
* the recorder `mark_attendance` (INSERT guarded by the storage-level
  uniqueness constraint, with the two `except` blocks),
* the query service (`fetch_data` with its `st.cache_data(ttl=60)` cache,
  the per-date SELECT, the DISTINCT class listing and the `"All"` sentinel),
* the tab-1 capture→transcribe→parse→record pipeline and session loop.

Characters are modelled at the ASCII level (the transcripts the app handles
are produced by an `en-IN` speech recognizer); Python's `\w`, `\s`,
`str.strip`, `str.title` and `str.lower` are embedded for ASCII inputs.
Machine-level details (the MySQL wire protocol, pandas dataframes) are out of
scope; rows are lists of records, dates and times are naturals.
-/

namespace VoiceAttendance

/-! ## Character classes and Python string helpers -/

/-- Python regex `\w` (ASCII): letters, digits, underscore. -/
def isWordChar (c : Char) : Bool := c.isAlpha || c.isDigit || c == '_'

/-- Python regex `\s` / `str.strip` whitespace (ASCII):
space, tab, newline, carriage return, vertical tab, form feed. -/
def isPySpace (c : Char) : Bool :=
  c == ' ' || c == '\t' || c == '\n' || c == '\r' || c == '\x0b' || c == '\x0c'

/-- The character class `[\w\s-]` of the CLASS capture group (src/app.py line 87). -/
def isClassChar (c : Char) : Bool := isWordChar c || isPySpace c || c == '-'

/-- Python `str.strip()`: drop whitespace from both ends. -/
def pyStrip (s : List Char) : List Char :=
  ((s.dropWhile isPySpace).reverse.dropWhile isPySpace).reverse

/-- Helper for `pyTitle`: the flag records whether the previous character was
a (cased) letter. -/
def pyTitleAux : Bool → List Char → List Char
  | _, [] => []
  | prevAlpha, c :: cs =>
    if c.isAlpha then
      (if prevAlpha then c.toLower else c.toUpper) :: pyTitleAux true cs
    else
      c :: pyTitleAux false cs

/-- Python `str.title()` (ASCII): a letter that follows a non-letter is
uppercased, a letter that follows a letter is lowercased. -/
def pyTitle (s : List Char) : List Char := pyTitleAux false s

/-! ## The regex `my name is (.*?) class ([\w\s-]+)$` with `re.IGNORECASE` -/

/-- Case-insensitive literal match (ASCII `re.IGNORECASE`): if `s` starts with
`lit` up to case, return the remainder of `s`. -/
def matchLitCI : List Char → List Char → Option (List Char)
  | [], s => some s
  | _ :: _, [] => none
  | l :: ls, c :: cs => if l.toLower == c.toLower then matchLitCI ls cs else none

/-- The literal `my name is ` that opens the pattern. -/
def introLit : List Char := "my name is ".data

/-- The literal ` class ` between the two capture groups. -/
def classLit : List Char := " class ".data

/-- The trailing part `([\w\s-]+)$` applied to the text after ` class `:
it matches exactly when that text is nonempty and made of `[\w\s-]`
characters, and then the capture is the whole text.  (Python's `$` also
matches just before a final newline, but `\n` itself is in `[\w\s-]`, so
that case collapses into this one.) -/
def tailOk (rest : List Char) : Bool := !rest.isEmpty && rest.all isClassChar

/-- One backtracking attempt of ` class ([\w\s-]+)$` at the current position. -/
def splitOkAt (s : List Char) : Bool :=
  match matchLitCI classLit s with
  | some rest => tailOk rest
  | none => false

/-- The non-greedy scan of `(.*?) class ([\w\s-]+)$`: at each position first
try to finish the pattern here, otherwise extend the NAME capture by one
character (which, being `.`, may not be a newline).  `acc` holds the NAME
characters consumed so far, in reverse. -/
def matchNameClass : List Char → List Char → Option (List Char × List Char)
  | _, [] => none
  | acc, c :: cs =>
    match matchLitCI classLit (c :: cs) with
    | some rest =>
      if tailOk rest then some (acc.reverse, rest)
      else if c == '\n' then none else matchNameClass (c :: acc) cs
    | none => if c == '\n' then none else matchNameClass (c :: acc) cs

/-- Attempt the whole pattern at the current position. -/
def matchHere (s : List Char) : Option (List Char × List Char) :=
  match matchLitCI introLit s with
  | some rest => matchNameClass [] rest
  | none => none

/-- `re.search`: try the pattern at every start position, leftmost match wins. -/
def searchPattern : List Char → Option (List Char × List Char)
  | [] => matchHere []
  | c :: cs =>
    match matchHere (c :: cs) with
    | some r => some r
    | none => searchPattern cs

/-- src/app.py `parse_attendance` (lines 79–96): search for
`my name is (.*?) class ([\w\s-]+)$` case-insensitively; on a match return
`(group(1).strip().title(), group(2).strip())`, otherwise `(None, None)`
(embedded as `none`). -/
def parse_attendance (transcript : String) : Option (String × String) :=
  match searchPattern transcript.data with
  | some (a, b) => some (String.mk (pyTitle (pyStrip a)), String.mk (pyStrip b))
  | none => none

/-! ## Data model and recorder -/

/-- One row of the `attendance_records` table.  Dates and times are abstract
naturals (the code stamps `datetime.now().date()` / `.time()`). -/
structure Row where
  student_name : String
  class_name : String
  date : Nat
  time : Nat
deriving DecidableEq

/-- A Python exception as observed by the handlers of `mark_attendance`:
whether it is a `mysql.connector.Error`, its `errno`, and its `str(e)`. -/
structure PyExn where
  isMySQLError : Bool
  errno : Nat
  msg : String
deriving DecidableEq

/-- Python `sub in s` on strings (substring test). -/
def containsSub : List Char → List Char → Bool
  | pat, [] => pat.isPrefixOf []
  | pat, c :: cs => pat.isPrefixOf (c :: cs) || containsSub pat cs

/-- Does the table already hold a row with this (student, class, date) key? -/
def hasKey (db : List Row) (name class_name : String) (d : Nat) : Bool :=
  db.any fun r => r.student_name == name && r.class_name == class_name && r.date == d

/-- The duplicate-entry error MySQL raises on a uniqueness violation:
a `mysql.connector.Error` with `errno` 1062 whose text contains
`Duplicate entry`. -/
def dupExn : PyExn := ⟨true, 1062, "Duplicate entry"⟩

/-- Result of the storage layer: either the new table contents were
committed, or an exception was raised (and nothing was written). -/
inductive InsertResult where
  | committed (db : List Row)
  | raised (e : PyExn)
deriving DecidableEq

/-- Modelled from the spec: the `attendance_records` schema is not in src/;
per the spec's storage boundary it carries
`UNIQUE(student_name, class_name, date)`, so inserting a row whose key is
already present raises the duplicate-entry error and writes nothing.
`fault` injects any other storage failure (connectivity etc.), which also
writes nothing — a single INSERT commits atomically, no partial writes. -/
def dbInsert (db : List Row) (r : Row) (fault : Option PyExn) : InsertResult :=
  match fault with
  | some e => .raised e
  | none =>
    if hasKey db r.student_name r.class_name r.date then .raised dupExn
    else .committed (db ++ [r])

/-- The warning message of the two duplicate branches (src lines 126 and 131). -/
def dupMsg (name : String) : String := name ++ " has already marked attendance for today."

/-- The two `except` blocks of `mark_attendance` (src lines 124–132):
a `mysql.connector.Error` is classified by its `errno`; any other exception
is classified by whether `"Duplicate entry"` occurs in `str(e)`. -/
def classify_db_exception (name : String) (e : PyExn) : String × String :=
  if e.isMySQLError then
    if e.errno == 1062 then ("warning", dupMsg name)
    else ("error", "Database error: " ++ e.msg)
  else if containsSub "Duplicate entry".data e.msg.data then ("warning", dupMsg name)
  else ("error", "An unexpected error occurred: " ++ e.msg)

/-- src/app.py `mark_attendance` (lines 98–132): insert a row stamped with
today's date and the current time; on success return
`("success", confirmation)` and the grown table; on any exception return the
classification of the exception and the unchanged table. -/
def mark_attendance (db : List Row) (name class_name : String) (d t : Nat)
    (fault : Option PyExn) : (String × String) × List Row :=
  match dbInsert db ⟨name, class_name, d, t⟩ fault with
  | .committed db' =>
      (("success", "Attendance marked for " ++ name ++ ", Class " ++ class_name ++ "."), db')
  | .raised e => (classify_db_exception name e, db)

/-! ## Query service -/

/-- Ordered insertion used to model SQL `ORDER BY`. -/
def insertBy (le : α → α → Bool) (a : α) : List α → List α
  | [] => [a]
  | x :: xs => if le x a then x :: insertBy le a xs else a :: x :: xs

/-- Sorting used to model SQL `ORDER BY`. -/
def sortBy (le : α → α → Bool) (l : List α) : List α := l.foldr (insertBy le) []

/-- `ORDER BY time DESC`: row `a` may come before row `b` when `b.time ≤ a.time`. -/
def timeDesc (a b : Row) : Bool := decide (b.time ≤ a.time)

/-- Lexicographic order on character sequences (by code point). -/
def lexLe : List Char → List Char → Bool
  | [], _ => true
  | _ :: _, [] => false
  | a :: as, b :: bs => if a.toNat == b.toNat then lexLe as bs else decide (a.toNat < b.toNat)

/-- `ORDER BY class_name` (alphabetical: lexicographic on the characters). -/
def alphaLe (a b : String) : Bool := lexLe a.data b.data

/-- The per-date query
`SELECT * FROM attendance_records WHERE date = :d ORDER BY time DESC`
(src lines 212 and 238). -/
def recordsForDate (db : List Row) (d : Nat) : List Row :=
  sortBy timeDesc (db.filter fun r => r.date == d)

/-- `SELECT DISTINCT class_name FROM attendance_records ORDER BY class_name`
(src line 215). -/
def distinctClasses (db : List Row) : List String :=
  sortBy alphaLe (db.map Row.class_name).dedup

/-- `class_list = ["All"] + list(classes_df['class_name'])` (src line 216). -/
def class_list (db : List Row) : List String := "All" :: distinctClasses db

/-- One entry of the `st.cache_data` cache: when the query ran and what it
returned. -/
structure CacheEntry where
  cachedAt : Nat
  rows : List Row
deriving DecidableEq

/-- src/app.py `fetch_data` (lines 40–49) specialised to the per-date query,
with the `@st.cache_data(ttl=60)` cache made explicit: the cache entry for
this (query, params) key is reused while its age is under 60 seconds,
otherwise the query is re-run against storage and the entry refreshed. -/
def fetch_data (cache : Option CacheEntry) (now : Nat) (db : List Row) (d : Nat) :
    List Row × Option CacheEntry :=
  match cache with
  | some e =>
    if now - e.cachedAt < 60 then (e.rows, some e)
    else (recordsForDate db d, some ⟨now, recordsForDate db d⟩)
  | none => (recordsForDate db d, some ⟨now, recordsForDate db d⟩)

/-! ## Capture and pipeline -/

/-- What the microphone/speech-API environment does on one capture attempt;
each constructor is one of the outcomes handled in `listen_for_voice`. -/
inductive CaptureOutcome where
  | heard (transcript : String)
  | waitTimeout
  | unknownValue
  | requestError (e : String)
  | otherError (e : String)

/-- src/app.py `listen_for_voice` (lines 51–77): every recognizer exception
is caught and mapped to `("error", message)`; a transcription returns
`("success", text)`. -/
def listen_for_voice : CaptureOutcome → String × String
  | .heard transcript => ("success", transcript)
  | .waitTimeout => ("error", "Listening timed out. Please try again.")
  | .unknownValue => ("error", "Sorry, I could not understand. Please speak clearly.")
  | .requestError e => ("error", "Could not request results; " ++ e)
  | .otherError e => ("error", "An unknown error occurred: " ++ e)

/-- The parse-failure message of the tab-1 pipeline (src line 190). -/
def couldNotExtractMsg : String :=
  "Could not extract name and class. Please follow the format: 'My name is [Name], class [Class]'."

/-- One voice-capture attempt of the tab-1 pipeline (src lines 166–197):
listen; on a transcript, parse; if both fields are truthy (Python
`if name and class_name`: not `None` and nonempty), record and display the
recorder's status (`st.success` / `st.warning` / `st.error`); otherwise show
the could-not-extract error; on a capture error show it.  Returns the
displayed status, the displayed message, and the table afterwards. -/
def processAttempt (db : List Row) (cap : CaptureOutcome) (d t : Nat)
    (fault : Option PyExn) : String × String × List Row :=
  let sm := listen_for_voice cap
  if sm.1 = "success" then
    match parse_attendance sm.2 with
    | some (name, class_name) =>
      if name ≠ "" ∧ class_name ≠ "" then
        let r := mark_attendance db name class_name d t fault
        ((if r.1.1 = "success" then "success"
          else if r.1.1 = "warning" then "warning" else "error"), r.1.2, r.2)
      else ("error", couldNotExtractMsg, db)
    | none => ("error", couldNotExtractMsg, db)
  else ("error", sm.2, db)

/-- One rerun of the tab-1 body (src lines 166–200): while the session is
listening, run one attempt and then unconditionally `st.rerun()` (the `true`
flag) to prompt for the next student; a stopped session does nothing. -/
def sessionStep (listening : Bool) (db : List Row) (cap : CaptureOutcome) (d t : Nat)
    (fault : Option PyExn) : List Row × Bool :=
  if listening then ((processAttempt db cap d t fault).2.2, true)
  else (db, false)

/-! ## Lemmas about the ordered-insertion model of ORDER BY -/

theorem insertBy_perm (le : α → α → Bool) (a : α) (l : List α) :
    List.Perm (insertBy le a l) (a :: l) := by
  induction l with
  | nil => exact List.Perm.refl _
  | cons x xs ih =>
    by_cases h : le x a = true
    · simp only [insertBy, if_pos h]
      exact (List.Perm.cons x ih).trans (List.Perm.swap a x xs)
    · simp [insertBy, h]

theorem sortBy_perm (le : α → α → Bool) (l : List α) : List.Perm (sortBy le l) l := by
  induction l with
  | nil => exact List.Perm.refl _
  | cons x xs ih =>
    simp only [sortBy, List.foldr_cons]
    exact (insertBy_perm le x _).trans (List.Perm.cons x ih)

theorem insertBy_pairwise (le : α → α → Bool)
    (htrans : ∀ u v w, le u v = true → le v w = true → le u w = true)
    (htot : ∀ u v, le u v = true ∨ le v u = true)
    (a : α) (l : List α) (h : l.Pairwise fun u v => le u v = true) :
    (insertBy le a l).Pairwise fun u v => le u v = true := by
  induction l with
  | nil => simp [insertBy]
  | cons x xs ih =>
    rcases List.pairwise_cons.mp h with ⟨hx, hxs⟩
    by_cases hxa : le x a = true
    · simp only [insertBy, if_pos hxa]
      refine List.pairwise_cons.mpr ⟨?_, ih hxs⟩
      intro y hy
      rcases List.mem_cons.mp ((insertBy_perm le a xs).mem_iff.mp hy) with rfl | hy'
      · exact hxa
      · exact hx y hy'
    · simp only [insertBy, if_neg hxa]
      refine List.pairwise_cons.mpr ⟨?_, h⟩
      intro y hy
      have hax : le a x = true := (htot x a).resolve_left hxa
      rcases List.mem_cons.mp hy with rfl | hy'
      · exact hax
      · exact htrans a x y hax (hx y hy')

theorem sortBy_pairwise (le : α → α → Bool)
    (htrans : ∀ u v w, le u v = true → le v w = true → le u w = true)
    (htot : ∀ u v, le u v = true ∨ le v u = true)
    (l : List α) : (sortBy le l).Pairwise fun u v => le u v = true := by
  induction l with
  | nil => simp [sortBy]
  | cons x xs ih =>
    simp only [sortBy, List.foldr_cons]
    exact insertBy_pairwise le htrans htot x _ ih

theorem timeDesc_trans (u v w : Row) (h1 : timeDesc u v = true) (h2 : timeDesc v w = true) :
    timeDesc u w = true := by
  simp only [timeDesc, decide_eq_true_eq] at *
  omega

theorem timeDesc_total (u v : Row) : timeDesc u v = true ∨ timeDesc v u = true := by
  simp only [timeDesc, decide_eq_true_eq]
  omega

theorem lexLe_trans (x : List Char) : ∀ y z : List Char,
    lexLe x y = true → lexLe y z = true → lexLe x z = true := by
  induction x with
  | nil => intro y z _ _; rfl
  | cons a as ih =>
    intro y z h1 h2
    cases y with
    | nil => simp [lexLe] at h1
    | cons b bs =>
      cases z with
      | nil => simp [lexLe] at h2
      | cons c cs =>
        simp only [lexLe, beq_iff_eq] at h1 h2 ⊢
        by_cases hab : a.toNat = b.toNat
        · rw [if_pos hab] at h1
          by_cases hbc : b.toNat = c.toNat
          · rw [if_pos hbc] at h2
            rw [if_pos (hab.trans hbc)]
            exact ih bs cs h1 h2
          · rw [if_neg hbc, decide_eq_true_eq] at h2
            have hac : ¬ a.toNat = c.toNat := by omega
            rw [if_neg hac, decide_eq_true_eq]
            omega
        · rw [if_neg hab, decide_eq_true_eq] at h1
          by_cases hbc : b.toNat = c.toNat
          · have hac : ¬ a.toNat = c.toNat := by omega
            rw [if_neg hac, decide_eq_true_eq]
            omega
          · rw [if_neg hbc, decide_eq_true_eq] at h2
            have hac : ¬ a.toNat = c.toNat := by omega
            rw [if_neg hac, decide_eq_true_eq]
            omega

theorem lexLe_total (x : List Char) : ∀ y : List Char,
    lexLe x y = true ∨ lexLe y x = true := by
  induction x with
  | nil => intro y; left; rfl
  | cons a as ih =>
    intro y
    cases y with
    | nil => right; rfl
    | cons b bs =>
      simp only [lexLe, beq_iff_eq]
      by_cases hab : a.toNat = b.toNat
      · simp only [hab, if_pos rfl, if_pos]
        exact ih bs
      · have hba : ¬ b.toNat = a.toNat := fun h => hab h.symm
        simp only [if_neg hab, if_neg hba, decide_eq_true_eq]
        omega

theorem alphaLe_trans (u v w : String) (h1 : alphaLe u v = true) (h2 : alphaLe v w = true) :
    alphaLe u w = true := lexLe_trans u.data v.data w.data h1 h2

theorem alphaLe_total (u v : String) : alphaLe u v = true ∨ alphaLe v u = true :=
  lexLe_total u.data v.data

/-- C7: for every date the per-date query returns exactly the rows with that
date (a permutation of the date filter), ordered by time descending; the
distinct-classes query returns every class name ever recorded, each once,
ordered alphabetically; and the filter control prepends the synthetic
`"All"` sentinel as the first element. -/
theorem C7_query_order_and_classes :
    (∀ (db : List Row) (d : Nat),
       List.Perm (recordsForDate db d) (db.filter fun r => r.date == d))
  ∧ (∀ (db : List Row) (d : Nat),
       (recordsForDate db d).Pairwise fun a b => b.time ≤ a.time)
  ∧ (∀ (db : List Row) (c : String),
       c ∈ distinctClasses db ↔ c ∈ db.map Row.class_name)
  ∧ (∀ db : List Row, (distinctClasses db).Nodup)
  ∧ (∀ db : List Row, (distinctClasses db).Pairwise fun a b => alphaLe a b = true)
  ∧ (∀ db : List Row, class_list db = "All" :: distinctClasses db) := by
  refine ⟨?_, ?_, ?_, ?_, ?_, ?_⟩
  · intro db d
    exact sortBy_perm timeDesc _
  · intro db d
    exact (sortBy_pairwise timeDesc timeDesc_trans timeDesc_total _).imp
      fun h => by simpa [timeDesc] using h
  · intro db c
    rw [distinctClasses, (sortBy_perm alphaLe _).mem_iff, List.mem_dedup]
  · intro db
    exact ((sortBy_perm alphaLe _).nodup_iff).mpr (List.nodup_dedup _)
  · intro db
    exact sortBy_pairwise alphaLe alphaLe_trans alphaLe_total _
  · intro db
    rfl

/-! ## Lemmas about the parser -/

theorem matchLitCI_of_lowerEq (lit : List Char) : ∀ lit' s : List Char,
    lit.map Char.toLower = lit'.map Char.toLower → matchLitCI lit (lit' ++ s) = some s := by
  induction lit with
  | nil =>
    intro lit' s h
    rw [List.map_nil] at h
    rw [List.eq_nil_of_map_eq_nil h.symm]
    rfl
  | cons l ls ih =>
    intro lit' s h
    cases lit' with
    | nil => simp at h
    | cons c cs =>
      simp only [List.map_cons, List.cons.injEq] at h
      simp only [List.cons_append, matchLitCI, h.1, beq_self_eq_true, if_true]
      exact ih cs s h.2

theorem matchNameClass_hit (acc s B : List Char) (h : matchLitCI classLit s = some B)
    (hB : tailOk B = true) : matchNameClass acc s = some (acc.reverse, B) := by
  cases s with
  | nil =>
    have hnone : matchLitCI classLit ([] : List Char) = none := by decide
    rw [hnone] at h
    cases h
  | cons c cs =>
    simp [matchNameClass, h, hB]

theorem matchNameClass_miss (acc : List Char) (c : Char) (cs : List Char)
    (h : splitOkAt (c :: cs) = false) (hc : ¬ c = '\n') :
    matchNameClass acc (c :: cs) = matchNameClass (c :: acc) cs := by
  have hcb : (c == '\n') = false := beq_eq_false_iff_ne.mpr hc
  cases hm : matchLitCI classLit (c :: cs) with
  | none => simp [matchNameClass, hm, hcb]
  | some rest =>
    have h' : tailOk rest = false := by simpa [splitOkAt, hm] using h
    simp [matchNameClass, hm, h', hcb]

theorem matchNameClass_split (A : List Char) : ∀ (acc C B : List Char),
    C.map Char.toLower = classLit.map Char.toLower →
    (∀ c ∈ A, ¬ c = '\n') → tailOk B = true →
    (∀ k, k < A.length → splitOkAt (A.drop k ++ (C ++ B)) = false) →
    matchNameClass acc (A ++ (C ++ B)) = some (acc.reverse ++ A, B) := by
  induction A with
  | nil =>
    intro acc C B hC _ hB _
    simp only [List.nil_append]
    rw [matchNameClass_hit acc _ B (matchLitCI_of_lowerEq classLit C B hC.symm) hB,
      List.append_nil]
  | cons a A' ih =>
    intro acc C B hC h1 hB h3
    have h30 : splitOkAt (a :: (A' ++ (C ++ B))) = false := by
      have := h3 0 (by simp)
      simpa using this
    have hstep : matchNameClass acc ((a :: A') ++ (C ++ B)) =
        matchNameClass (a :: acc) (A' ++ (C ++ B)) := by
      rw [List.cons_append]
      exact matchNameClass_miss acc a _ h30 (h1 a (List.mem_cons_self a A'))
    have h3' : ∀ k, k < A'.length → splitOkAt (A'.drop k ++ (C ++ B)) = false := by
      intro k hk
      have h := h3 (k + 1) (by simp only [List.length_cons]; omega)
      simpa using h
    have ih' := ih (a :: acc) C B hC (fun c hc => h1 c (List.mem_cons_of_mem a hc)) hB h3'
    rw [hstep, ih']
    simp

theorem searchPattern_hit (s : List Char) (r : List Char × List Char)
    (h : matchHere s = some r) : searchPattern s = some r := by
  cases s with
  | nil => simpa [searchPattern] using h
  | cons c cs => simp [searchPattern, h]

/-- C2: for every transcript of the literal shape
`<intro><A><class-sep><B>` — where `<intro>` and `<class-sep>` are any case
variants of `my name is ` and ` class `, `<A>` contains no newline, `<B>` is a
nonempty run of `[\w\s-]` characters (the end-of-string anchor), and no
earlier position inside `<A>` completes the pattern (the non-greedy NAME
capture) — the parser returns name = title-cased trim of `<A>` and
className = trim of `<B>` with no case change; in particular the class tokens
`3a`, ` 10-B ` and `nursery ` parse to `3a`, `10-B` and `nursery`. -/
theorem C2_parse_matching_transcripts :
    (∀ I A C B : List Char,
       I.map Char.toLower = introLit.map Char.toLower →
       C.map Char.toLower = classLit.map Char.toLower →
       (∀ c ∈ A, ¬ c = '\n') →
       tailOk B = true →
       (∀ k, k < A.length → splitOkAt (A.drop k ++ (C ++ B)) = false) →
       parse_attendance (String.mk (I ++ (A ++ (C ++ B)))) =
         some (String.mk (pyTitle (pyStrip A)), String.mk (pyStrip B)))
  ∧ parse_attendance "my name is deep class 3a" = some ("Deep", "3a")
  ∧ parse_attendance "MY NAME IS deep CLASS  10-B " = some ("Deep", "10-B")
  ∧ parse_attendance "my name is deep class nursery " = some ("Deep", "nursery") := by
  refine ⟨?_, by decide, by decide, by decide⟩
  intro I A C B hI hC h1 hB h3
  have hsearch : searchPattern (I ++ (A ++ (C ++ B))) = some (A, B) := by
    apply searchPattern_hit
    rw [matchHere, matchLitCI_of_lowerEq introLit I _ hI.symm]
    have := matchNameClass_split A [] C B hC h1 hB h3
    simpa using this
  simp [parse_attendance, hsearch]

theorem C2_parse_matching_transcripts_witness :
    parse_attendance
        (String.mk ("My Name Is ".data ++ ("asha rao".data ++ (" Class ".data ++ "3a".data)))) =
      some (String.mk (pyTitle (pyStrip "asha rao".data)), String.mk (pyStrip "3a".data)) :=
  C2_parse_matching_transcripts.1 "My Name Is ".data "asha rao".data " Class ".data "3a".data
    (by decide) (by decide) (by decide) (by decide) (by decide)

/-! ## C4: the parser is total and returns the no-match signal -/

/-- Does `pat` occur (case-insensitively) anywhere in the text? -/
def occursCI (pat : List Char) : List Char → Bool
  | [] => (matchLitCI pat []).isSome
  | c :: cs => (matchLitCI pat (c :: cs)).isSome || occursCI pat cs

theorem searchPattern_none (s : List Char) (h : occursCI introLit s = false) :
    searchPattern s = none := by
  induction s with
  | nil =>
    have hmh : matchHere [] = none := by
      rw [matchHere]
      cases hm : matchLitCI introLit [] with
      | none => rfl
      | some r => rw [occursCI, hm] at h; simp at h
    simp only [searchPattern]
    exact hmh
  | cons c cs ih =>
    rw [occursCI, Bool.or_eq_false_iff] at h
    have hmh : matchHere (c :: cs) = none := by
      rw [matchHere]
      cases hm : matchLitCI introLit (c :: cs) with
      | none => rfl
      | some r => rw [hm] at h; simp at h
    simp only [searchPattern, hmh]
    exact ih h.2

/-- C4: when the pattern's opening literal occurs nowhere in the transcript
(case-insensitively) the parser returns the no-match signal, and on any
transcript whatsoever its output is either a (name, className) pair or the
no-match signal — the embedding is a total function, the code never throws. -/
theorem C4_parse_total_no_match :
    (∀ t : String, occursCI introLit t.data = false → parse_attendance t = none)
  ∧ (∀ t : String, parse_attendance t = none ∨ ∃ n c, parse_attendance t = some (n, c)) := by
  constructor
  · intro t h
    rw [parse_attendance, searchPattern_none t.data h]
  · intro t
    cases hp : parse_attendance t with
    | none => exact Or.inl rfl
    | some p =>
      obtain ⟨n, c⟩ := p
      exact Or.inr ⟨n, c, rfl⟩

theorem C4_parse_total_no_match_witness : parse_attendance "hello there" = none :=
  C4_parse_total_no_match.1 "hello there" (by decide)

/-! ## C5: the character set of the captured class -/

/-- C5 fails on the code: `\w` also matches the underscore, so a class token
may contain a character outside letters, digits, spaces and hyphens. -/
theorem C5_class_charset_counterexample :
    parse_attendance "my name is x class a_b" = some ("X", "a_b")
  ∧ '_' ∈ ("a_b" : String).data
  ∧ ('_'.isAlpha || '_'.isDigit || '_' == ' ' || '_' == '-') = false := by
  refine ⟨by decide, by decide, by decide⟩

theorem matchNameClass_tailOk (s : List Char) : ∀ acc a b : List Char,
    matchNameClass acc s = some (a, b) → tailOk b = true := by
  induction s with
  | nil => intro acc a b h; cases h
  | cons c cs ih =>
    intro acc a b h
    cases hm : matchLitCI classLit (c :: cs) with
    | some rest =>
      simp only [matchNameClass, hm] at h
      by_cases ht : tailOk rest = true
      · rw [if_pos ht] at h
        simp only [Option.some.injEq, Prod.mk.injEq] at h
        rw [← h.2]
        exact ht
      · rw [if_neg ht] at h
        by_cases hc : (c == '\n') = true
        · rw [if_pos hc] at h; cases h
        · rw [if_neg hc] at h; exact ih (c :: acc) a b h
    | none =>
      simp only [matchNameClass, hm] at h
      by_cases hc : (c == '\n') = true
      · rw [if_pos hc] at h; cases h
      · rw [if_neg hc] at h; exact ih (c :: acc) a b h

theorem matchHere_tailOk (s a b : List Char) (h : matchHere s = some (a, b)) :
    tailOk b = true := by
  rw [matchHere] at h
  cases hm : matchLitCI introLit s with
  | none => rw [hm] at h; cases h
  | some rest => rw [hm] at h; exact matchNameClass_tailOk rest [] a b h

theorem searchPattern_tailOk (s : List Char) : ∀ a b : List Char,
    searchPattern s = some (a, b) → tailOk b = true := by
  induction s with
  | nil =>
    intro a b h
    simp only [searchPattern] at h
    exact matchHere_tailOk [] a b h
  | cons c cs ih =>
    intro a b h
    rw [searchPattern] at h
    cases hm : matchHere (c :: cs) with
    | some r =>
      rw [hm] at h
      injection h with h'
      subst h'
      exact matchHere_tailOk (c :: cs) a b hm
    | none => rw [hm] at h; exact ih a b h

theorem mem_pyStrip (x : Char) (s : List Char) (h : x ∈ pyStrip s) : x ∈ s := by
  rw [pyStrip, List.mem_reverse] at h
  have h2 : x ∈ (s.dropWhile isPySpace).reverse := (List.dropWhile_sublist _).subset h
  rw [List.mem_reverse] at h2
  exact (List.dropWhile_sublist _).subset h2

/-- C5 amended: the class capture group is `[\w\s-]+`, so every character of
the returned className is a word character (letter, digit or underscore),
whitespace, or a hyphen. -/
theorem C5_class_charset_amended (t n c : String) (h : parse_attendance t = some (n, c)) :
    c.data.all isClassChar = true := by
  rw [parse_attendance] at h
  cases hs : searchPattern t.data with
  | none => rw [hs] at h; cases h
  | some p =>
    obtain ⟨a, b⟩ := p
    rw [hs] at h
    simp only [Option.some.injEq, Prod.mk.injEq] at h
    have htail := searchPattern_tailOk t.data a b hs
    rw [tailOk, Bool.and_eq_true] at htail
    rw [← h.2]
    rw [List.all_eq_true] at htail ⊢
    intro x hx
    exact htail.2 x (mem_pyStrip x b hx)

theorem C5_class_charset_amended_witness : ("3-b" : String).data.all isClassChar = true :=
  C5_class_charset_amended "my name is x class 3-b" "X" "3-b" (by decide)

/-! ## Lemmas about the recorder -/

theorem string_data_append (s u : String) : (s ++ u).data = s.data ++ u.data := rfl

theorem hasKey_append (db : List Row) (r : Row) (n c : String) (d : Nat) :
    hasKey (db ++ [r]) n c d =
      (hasKey db n c d || (r.student_name == n && r.class_name == c && r.date == d)) := by
  simp [hasKey, List.any_append]

theorem filter_key_nil (db : List Row) (n c : String) (d : Nat)
    (h : hasKey db n c d = false) :
    db.filter (fun r => r.student_name == n && r.class_name == c && r.date == d) = [] := by
  rw [List.filter_eq_nil_iff]
  rw [hasKey, List.any_eq_false] at h
  intro r hr
  simpa using h r hr

theorem dbInsert_committed (db : List Row) (r : Row) (fault : Option PyExn)
    (db' : List Row) (h : dbInsert db r fault = .committed db') : db' = db ++ [r] := by
  cases fault with
  | some e => cases h
  | none =>
    rw [dbInsert] at h
    by_cases hk : hasKey db r.student_name r.class_name r.date = true
    · rw [if_pos hk] at h; cases h
    · rw [if_neg hk] at h
      injection h with h'
      exact h'.symm

/-- C1: starting from a table with no row for either key, recording the same
(name, class) twice on the same date yields Created then Duplicate and leaves
exactly one row with that key, while recording it on a second, different date
yields Created again, appending a second row that differs only in date/time. -/
theorem C1_attendance_unique_per_day (db : List Row) (name cls : String)
    (d₁ d₂ t₁ t₂ t₃ : Nat)
    (h1 : hasKey db name cls d₁ = false) (h2 : hasKey db name cls d₂ = false)
    (hd : ¬ d₁ = d₂) :
    mark_attendance db name cls d₁ t₁ none =
      (("success", "Attendance marked for " ++ name ++ ", Class " ++ cls ++ "."),
        db ++ [⟨name, cls, d₁, t₁⟩])
  ∧ mark_attendance (db ++ [⟨name, cls, d₁, t₁⟩]) name cls d₁ t₂ none =
      (("warning", dupMsg name), db ++ [⟨name, cls, d₁, t₁⟩])
  ∧ ((db ++ [(⟨name, cls, d₁, t₁⟩ : Row)]).filter fun r =>
        r.student_name == name && r.class_name == cls && r.date == d₁).length = 1
  ∧ mark_attendance (db ++ [⟨name, cls, d₁, t₁⟩]) name cls d₂ t₃ none =
      (("success", "Attendance marked for " ++ name ++ ", Class " ++ cls ++ "."),
        db ++ [⟨name, cls, d₁, t₁⟩, ⟨name, cls, d₂, t₃⟩]) := by
  refine ⟨?_, ?_, ?_, ?_⟩
  · simp [mark_attendance, dbInsert, h1]
  · have hk : hasKey (db ++ [⟨name, cls, d₁, t₁⟩]) name cls d₁ = true := by
      simp [hasKey_append, h1]
    simp [mark_attendance, dbInsert, hk, classify_db_exception, dupExn]
  · rw [List.filter_append, filter_key_nil db name cls d₁ h1]
    simp
  · have hk : hasKey (db ++ [⟨name, cls, d₁, t₁⟩]) name cls d₂ = false := by
      have hne : (d₁ == d₂) = false := beq_eq_false_iff_ne.mpr hd
      simp [hasKey_append, h2, hne]
    simp [mark_attendance, dbInsert, hk]

theorem C1_attendance_unique_per_day_witness :
    mark_attendance [] "Deep Singh" "10-B" 0 1 none =
      (("success", "Attendance marked for " ++ "Deep Singh" ++ ", Class " ++ "10-B" ++ "."),
        [] ++ [⟨"Deep Singh", "10-B", 0, 1⟩])
  ∧ mark_attendance ([] ++ [⟨"Deep Singh", "10-B", 0, 1⟩]) "Deep Singh" "10-B" 0 2 none =
      (("warning", dupMsg "Deep Singh"), [] ++ [⟨"Deep Singh", "10-B", 0, 1⟩])
  ∧ (([] ++ [(⟨"Deep Singh", "10-B", 0, 1⟩ : Row)]).filter fun r : Row =>
        r.student_name == "Deep Singh" && r.class_name == "10-B" && r.date == 0).length = 1
  ∧ mark_attendance ([] ++ [⟨"Deep Singh", "10-B", 0, 1⟩]) "Deep Singh" "10-B" 1 3 none =
      (("success", "Attendance marked for " ++ "Deep Singh" ++ ", Class " ++ "10-B" ++ "."),
        [] ++ [⟨"Deep Singh", "10-B", 0, 1⟩, ⟨"Deep Singh", "10-B", 1, 3⟩]) :=
  C1_attendance_unique_per_day [] "Deep Singh" "10-B" 0 1 1 2 3
    (by decide) (by decide) (by decide)

theorem classify_cases (name : String) (e : PyExn) :
    classify_db_exception name e = ("warning", dupMsg name)
  ∨ (classify_db_exception name e).1 = "error" := by
  rw [classify_db_exception]
  by_cases h1 : e.isMySQLError = true
  · rw [if_pos h1]
    by_cases h2 : (e.errno == 1062) = true
    · rw [if_pos h2]; exact Or.inl rfl
    · rw [if_neg h2]; exact Or.inr rfl
  · rw [if_neg h1]
    by_cases h3 : containsSub "Duplicate entry".data e.msg.data = true
    · rw [if_pos h3]; exact Or.inl rfl
    · rw [if_neg h3]; exact Or.inr rfl

/-- C3: the recorder has exactly the three outcomes success / warning /
error; on success it appends exactly the one new row and its message contains
both the name and the class; on warning (duplicate) and on error the table is
unchanged, and the warning message is the already-marked-today message. -/
theorem C3_recorder_three_outcomes (db : List Row) (name cls : String) (d t : Nat)
    (fault : Option PyExn) :
    ((mark_attendance db name cls d t fault).1.1 = "success"
      ∨ (mark_attendance db name cls d t fault).1.1 = "warning"
      ∨ (mark_attendance db name cls d t fault).1.1 = "error")
  ∧ ((mark_attendance db name cls d t fault).1.1 = "success" →
      (mark_attendance db name cls d t fault).2 = db ++ [⟨name, cls, d, t⟩]
      ∧ List.IsInfix name.data (mark_attendance db name cls d t fault).1.2.data
      ∧ List.IsInfix cls.data (mark_attendance db name cls d t fault).1.2.data)
  ∧ ((mark_attendance db name cls d t fault).1.1 = "warning" →
      (mark_attendance db name cls d t fault).2 = db
      ∧ (mark_attendance db name cls d t fault).1.2 = dupMsg name)
  ∧ ((mark_attendance db name cls d t fault).1.1 = "error" →
      (mark_attendance db name cls d t fault).2 = db) := by
  have hsw : ¬ ("success" : String) = "warning" := by decide
  have hse : ¬ ("success" : String) = "error" := by decide
  have hws : ¬ ("warning" : String) = "success" := by decide
  have hwe : ¬ ("warning" : String) = "error" := by decide
  have hes : ¬ ("error" : String) = "success" := by decide
  have hew : ¬ ("error" : String) = "warning" := by decide
  cases hins : dbInsert db ⟨name, cls, d, t⟩ fault with
  | committed db' =>
    have hdb : db' = db ++ [⟨name, cls, d, t⟩] := dbInsert_committed db _ fault db' hins
    have hm : mark_attendance db name cls d t fault =
        (("success", "Attendance marked for " ++ name ++ ", Class " ++ cls ++ "."), db') := by
      simp only [mark_attendance, hins]
    rw [hm]
    refine ⟨Or.inl rfl, ?_, ?_, ?_⟩
    · intro _
      refine ⟨hdb, ?_, ?_⟩
      · refine ⟨"Attendance marked for ".data, (", Class " ++ cls ++ ".").data, ?_⟩
        simp [string_data_append, List.append_assoc]
      · refine ⟨("Attendance marked for " ++ name ++ ", Class ").data, ".".data, ?_⟩
        simp [string_data_append, List.append_assoc]
    · intro hw
      exact absurd hw hsw
    · intro he
      exact absurd he hse
  | raised e =>
    have hm : mark_attendance db name cls d t fault = (classify_db_exception name e, db) := by
      simp only [mark_attendance, hins]
    rw [hm]
    rcases classify_cases name e with hcl | hcl
    · rw [hcl]
      refine ⟨Or.inr (Or.inl rfl), ?_, ?_, ?_⟩
      · intro hs
        exact absurd hs hws
      · intro _
        exact ⟨rfl, rfl⟩
      · intro he
        exact absurd he hwe
    · refine ⟨Or.inr (Or.inr hcl), ?_, ?_, ?_⟩
      · intro hs
        exact absurd (hcl.symm.trans hs) hes
      · intro hw
        exact absurd (hcl.symm.trans hw) hew
      · intro _
        rfl

theorem C3_recorder_three_outcomes_witness :
    (mark_attendance [] "Asha" "3a" 0 5 none).2 = [] ++ [⟨"Asha", "3a", 0, 5⟩]
  ∧ List.IsInfix ("Asha" : String).data (mark_attendance [] "Asha" "3a" 0 5 none).1.2.data
  ∧ List.IsInfix ("3a" : String).data (mark_attendance [] "Asha" "3a" 0 5 none).1.2.data :=
  (C3_recorder_three_outcomes [] "Asha" "3a" 0 5 none).2.1 (by decide)

/-! ## C10: how exceptions are classified as Duplicate -/

/-- C10 fails as stated: a `mysql.connector.Error` with errno ≠ 1062 whose
text contains `Duplicate entry` satisfies the claim's condition yet is
classified as an error, because the mysql handler runs first and looks only
at the errno. -/
theorem C10_duplicate_classification_counterexample :
    ¬ (((classify_db_exception "X" ⟨true, 5, "Duplicate entry"⟩).1 = "warning") ↔
       (((⟨true, 5, "Duplicate entry"⟩ : PyExn).isMySQLError = true
           ∧ (⟨true, 5, "Duplicate entry"⟩ : PyExn).errno = 1062)
         ∨ containsSub "Duplicate entry".data
             (⟨true, 5, "Duplicate entry"⟩ : PyExn).msg.data = true)) := by
  decide

/-- C10 amended: the recorder never raises — with a raised storage exception
it returns the classification and the unchanged table — and it classifies the
exception as the Duplicate warning exactly when it is a mysql error with
errno 1062, or a non-mysql exception whose text contains `Duplicate entry`. -/
theorem C10_duplicate_classification_amended (name : String) (e : PyExn)
    (db : List Row) (cls : String) (d t : Nat) :
    mark_attendance db name cls d t (some e) = (classify_db_exception name e, db)
  ∧ ((classify_db_exception name e).1 = "warning" ↔
      (e.isMySQLError = true ∧ e.errno = 1062)
        ∨ (e.isMySQLError = false
            ∧ containsSub "Duplicate entry".data e.msg.data = true)) := by
  refine ⟨rfl, ?_⟩
  rw [classify_db_exception]
  cases he : e.isMySQLError with
  | true =>
    by_cases h62 : e.errno = 1062
    · simp [h62]
    · have hb : (e.errno == 1062) = false := by simpa using h62
      simp [hb, h62]
  | false =>
    by_cases hm : containsSub "Duplicate entry".data e.msg.data = true
    · simp [hm]
    · simp [hm]

/-! ## C8: a no-match transcript never touches storage -/

/-- C8: whenever the parser returns the no-match signal on the captured
transcript, the pipeline displays the could-not-extract error and the
attendance table is returned unchanged — the recorder is never reached. -/
theorem C8_no_match_no_storage (db : List Row) (transcript : String) (d t : Nat)
    (fault : Option PyExn) (h : parse_attendance transcript = none) :
    processAttempt db (.heard transcript) d t fault = ("error", couldNotExtractMsg, db) := by
  simp [processAttempt, listen_for_voice, h]

theorem C8_no_match_no_storage_witness :
    processAttempt [] (.heard "hello there") 0 0 none = ("error", couldNotExtractMsg, []) :=
  C8_no_match_no_storage [] "hello there" 0 0 none (by decide)

/-! ## C9: every attempt ends in one of three statuses and the loop continues -/

/-- C9: whatever the capture outcome, the parse result, and the storage
behaviour, one pipeline attempt displays one of exactly the three statuses
success / warning / error, and the listening session always reruns for the
next attempt afterwards. -/
theorem C9_pipeline_statuses_loop (db : List Row) (cap : CaptureOutcome) (d t : Nat)
    (fault : Option PyExn) :
    ((processAttempt db cap d t fault).1 = "success"
      ∨ (processAttempt db cap d t fault).1 = "warning"
      ∨ (processAttempt db cap d t fault).1 = "error")
  ∧ (sessionStep true db cap d t fault).2 = true := by
  constructor
  · cases cap with
    | heard transcript =>
      simp only [processAttempt, listen_for_voice]
      rw [if_pos trivial]
      cases hp : parse_attendance transcript with
      | none => right; right; rfl
      | some p =>
        obtain ⟨n, c⟩ := p
        dsimp only
        by_cases hnc : n ≠ "" ∧ c ≠ ""
        · rw [if_pos hnc]
          by_cases hs : (mark_attendance db n c d t fault).1.1 = "success"
          · rw [if_pos hs]; left; rfl
          · rw [if_neg hs]
            by_cases hw : (mark_attendance db n c d t fault).1.1 = "warning"
            · rw [if_pos hw]; right; left; rfl
            · rw [if_neg hw]; right; right; rfl
        · rw [if_neg hnc]; right; right; rfl
    | waitTimeout =>
      right; right
      simp only [processAttempt, listen_for_voice]
      rw [if_neg (by decide : ¬ ("error" : String) = "success")]
    | unknownValue =>
      right; right
      simp only [processAttempt, listen_for_voice]
      rw [if_neg (by decide : ¬ ("error" : String) = "success")]
    | requestError e =>
      right; right
      simp only [processAttempt, listen_for_voice]
      rw [if_neg (by decide : ¬ ("error" : String) = "success")]
    | otherError e =>
      right; right
      simp only [processAttempt, listen_for_voice]
      rw [if_neg (by decide : ¬ ("error" : String) = "success")]
  · rfl

/-! ## C6: reads, writes and the 60-second cache -/

/-- C6 fails as stated: a committed insert is immediately in storage, but the
dashboard read goes through the `st.cache_data(ttl=60)` cache, so a read
two seconds after a cache entry that predates the insert still returns the
stale (empty) result, not reflecting the committed row. -/
theorem C6_read_reflects_insert_counterexample :
    mark_attendance [] "Asha" "3a" 0 1 none =
      (("success", "Attendance marked for Asha, Class 3a."), [⟨"Asha", "3a", 0, 1⟩])
  ∧ fetch_data (some ⟨0, []⟩) 2 [⟨"Asha", "3a", 0, 1⟩] 0 = ([], some ⟨0, []⟩)
  ∧ recordsForDate [⟨"Asha", "3a", 0, 1⟩] 0 = [⟨"Asha", "3a", 0, 1⟩]
  ∧ ¬ (⟨"Asha", "3a", 0, 1⟩ : Row) ∈ ([] : List Row) := by
  refine ⟨by decide, by decide, by decide, by decide⟩

/-- C6 amended: the per-date query returns zero rows before any insert for
that date; the write path is uncached, so an uncached (or expired-cache) read
immediately after a committed insert runs the query against storage and its
result contains the inserted row; only a still-fresh cache entry (age under
60 seconds) can serve a stale result. -/
theorem C6_read_reflects_insert_amended :
    (∀ (db : List Row) (d : Nat), (∀ r ∈ db, ¬ r.date = d) → recordsForDate db d = [])
  ∧ (∀ (db : List Row) (d now : Nat) (r : Row), r.date = d →
       (fetch_data none now (db ++ [r]) d).1 = recordsForDate (db ++ [r]) d
       ∧ r ∈ recordsForDate (db ++ [r]) d)
  ∧ (∀ (e : CacheEntry) (now : Nat) (db : List Row) (d : Nat),
       60 ≤ now - e.cachedAt → (fetch_data (some e) now db d).1 = recordsForDate db d) := by
  refine ⟨?_, ?_, ?_⟩
  · intro db d h
    rw [recordsForDate]
    have hnil : db.filter (fun r => r.date == d) = [] := by
      rw [List.filter_eq_nil_iff]
      intro r hr
      simpa using h r hr
    rw [hnil]
    rfl
  · intro db d now r hr
    refine ⟨rfl, ?_⟩
    rw [recordsForDate]
    have hmem : r ∈ (db ++ [r]).filter (fun x => x.date == d) := by
      rw [List.mem_filter]
      exact ⟨List.mem_append_right db (List.mem_singleton.mpr rfl), by simp [hr]⟩
    exact ((sortBy_perm timeDesc _).mem_iff).mpr hmem
  · intro e now db d h
    simp only [fetch_data]
    rw [if_neg (by omega)]

theorem C6_read_reflects_insert_amended_witness :
    recordsForDate ([⟨"Asha", "3a", 5, 1⟩] : List Row) 0 = []
  ∧ ((fetch_data none 7 ([] ++ [(⟨"Asha", "3a", 0, 3⟩ : Row)]) 0).1 =
       recordsForDate ([] ++ [(⟨"Asha", "3a", 0, 3⟩ : Row)]) 0
     ∧ (⟨"Asha", "3a", 0, 3⟩ : Row) ∈ recordsForDate ([] ++ [(⟨"Asha", "3a", 0, 3⟩ : Row)]) 0)
  ∧ (fetch_data (some ⟨0, []⟩) 60 [] 0).1 = recordsForDate [] 0 :=
  ⟨C6_read_reflects_insert_amended.1 [⟨"Asha", "3a", 5, 1⟩] 0 (by decide),
   C6_read_reflects_insert_amended.2.1 [] 0 7 ⟨"Asha", "3a", 0, 3⟩ rfl,
   C6_read_reflects_insert_amended.2.2 ⟨0, []⟩ 60 [] 0 (by decide)⟩

end VoiceAttendance
